import Mathlib

/-!
Verification of `talus_client/cmds/images.py` (the Talus image command
processor).  The data model, the snapshot-tree builder, the status-polling
loops and the guarded delete/configure preconditions are embedded as pure
Lean functions; remote interaction is modelled by an environment (the remote
image listing) and by explicit traces of refresh outcomes.
-/

namespace Talus

/-- Status of an image: the `name` lifecycle field, an optional `error`
message, and the optional VNC connection URI found at
`status["vnc"]["vnc"]["uri"]` in the source. -/
structure Status where
  name : String
  error : Option String := none
  vnc : Option String := none
  deriving Repr, DecidableEq

/-- Image record as used by `images.py`: `id`, optional `name`, optional
`base_image` reference (an id), optional `os`, `tags`, and `status`.
Fields that no claim touches (desc, md5, username, password, timestamps)
are omitted; the timestamp assignment before `save()` carries a wall-clock
value and is not modelled. -/
structure Image where
  id : String
  name : Option String := none
  base_image : Option String := none
  os : Option String := none
  tags : List String := []
  status : Status := { name := "" }
  deriving Repr, DecidableEq

/-- Modelled from the spec: `Image.children()` (the client library is not in
`src/`) — the images of the remote listing whose `base_image` equals this
image's `id`, in the order returned by the remote listing. -/
def childrenOf (env : List Image) (img : Image) : List Image :=
  env.filter (fun c => c.base_image = some img.id)

/-- Modelled from the spec: `Image.find_one(id=...)` (the client library is
not in `src/`) — the first image of the remote listing with the given id,
or nothing when the record does not exist remotely. -/
def findOne (env : List Image) (i : String) : Option Image :=
  env.find? (fun img => img.id = i)

/-- Error outcomes of the ancestor walk: the referenced base image no longer
exists remotely (NotFound), or the fuel bounding the unbounded source
recursion ran out. -/
inductive AncError where
  | notFound (missingId : String)
  | outOfFuel
  deriving Repr, DecidableEq

/-- Embeds the ancestor walk of `ImageCmd._show_image_in_tree`
(images.py lines 134-140): follow `base_image` references, collecting each
base image, and return the chain root-first (the source appends parent-first
and then reverses; here the recursion builds the reversed list directly:
`ancestors img = ancestors base ++ [base]`).  The source loop has no cycle
detection and need not terminate on cyclic remote data, so the recursion
depth is bounded by fuel. -/
def ancestorsAux (env : List Image) : Nat → Image → Except AncError (List Image)
  | fuel, img =>
    match img.base_image with
    | none => .ok []
    | some bid =>
      match fuel with
      | 0 => .error .outOfFuel
      | fuel' + 1 =>
        match findOne env bid with
        | none => .error (.notFound bid)
        | some base => (ancestorsAux env fuel' base).map (fun rest => rest ++ [base])

/-- Embeds `ImageCmd._get_tree_lines` (images.py lines 184-200), abstracted
to the ordered sequence of (indent_level, image) pairs: the line text is the
indent glyphs (determined by the depth alone) followed by the image name, so
the pair carries the same information.  The image's own line is emitted
first, then, when `recurse` is set, the lines of each child at depth+1, in
listing order.  The source recursion has no cycle detection; fuel bounds the
recursion depth. -/
def getTreeLines (env : List Image) : Nat → Image → Nat → Bool → List (Nat × Image)
  | 0, img, depth, _ => [(depth, img)]
  | fuel + 1, img, depth, recurse =>
    (depth, img) ::
      (if recurse then
        (childrenOf env img).flatMap (fun c => getTreeLines env fuel c (depth + 1) true)
      else [])

/-- Embeds `ImageCmd._show_image_in_tree` (images.py lines 133-155): the
ancestor chain root-first, one non-recursive tree line per ancestor at
increasing indent levels, followed by the full recursive subtree of the
image itself at indent level `tree.length`.  Fails when an ancestor lookup
fails. -/
def showImageInTree (env : List Image) (fuel : Nat) (img : Image) :
    Except AncError (List (Nat × Image)) :=
  (ancestorsAux env fuel img).map (fun tree =>
    tree.enum.flatMap (fun p => getTreeLines env fuel p.2 p.1 false) ++
      getTreeLines env fuel img tree.length true)

/-- Observable outcome of the guard phase of `do_delete` / `do_configure`:
the error message reported via `self.err`, the snapshot tree displayed via
`_show_image_in_tree`, whether the remote mutation endpoint
(`image_delete` / `image_configure`) was invoked, and the message of the
raised `TalusApiError`. -/
structure GuardOutcome where
  errMsg : Option String
  shownTree : Option (Except AncError (List (Nat × Image)))
  remoteCalled : Bool
  raisedMsg : Option String
  deriving Repr

/-- Embeds the dependent-snapshot guard of `ImageCmd.do_delete`
(images.py lines 499-508): when the resolved image has children, report the
error, display the image in its snapshot tree, raise, and do not call
`image_delete`; otherwise call `image_delete`. -/
def deleteGuard (env : List Image) (fuel : Nat) (nameArg : String) (img : Image) :
    GuardOutcome :=
  if (childrenOf env img).length > 0 then
    let msg := "Cannot delete image " ++ nameArg ++ "! it has dependent snapshots!"
    { errMsg := some msg
      shownTree := some (showImageInTree env fuel img)
      remoteCalled := false
      raisedMsg := some msg }
  else
    { errMsg := none, shownTree := none, remoteCalled := true, raisedMsg := none }

/-- Embeds the dependent-snapshot guard of `ImageCmd.do_configure`
(images.py lines 466-476): when the resolved image has children, report the
error, display the image in its snapshot tree, raise, and do not call
`image_configure`; otherwise call `image_configure`. -/
def configureGuard (env : List Image) (fuel : Nat) (nameArg : String) (img : Image) :
    GuardOutcome :=
  if (childrenOf env img).length > 0 then
    let msg := "the image " ++ nameArg ++ " has dependent snapshots! cannot configure the image"
    { errMsg := some msg
      shownTree := some (showImageInTree env fuel img)
      remoteCalled := false
      raisedMsg := some msg }
  else
    { errMsg := none, shownTree := none, remoteCalled := true, raisedMsg := none }

/-- Outcome of one `image.refresh()` call in a polling loop: a refreshed
status, or a raised exception with its `str(e)` text. -/
inductive RefreshResult where
  | ok (s : Status)
  | exn (msg : String)
  deriving Repr, DecidableEq

/-- Report printed by the delete poller: `self.ok` or `self.err` with the
given message. -/
inductive Report where
  | ok (msg : String)
  | err (msg : String)
  deriving Repr, DecidableEq

/-- Substring containment, embedding Python's `needle in haystack`. -/
def strContains (hay needle : String) : Bool :=
  decide (needle.data <:+: hay.data)

/-- Embeds the delete-wait loop of `ImageCmd.do_delete` (images.py lines
513-531) over a finite trace of refresh outcomes.  While `status.name` is
"delete", sleep and refresh; when a refresh raises, report success when the
exception text contains "model no longer exists" and report an error
otherwise; when the loop exits at a status whose name is not "delete",
report an error carrying `status.error` verbatim when the error key is
present, and success otherwise.  `none` means the trace ended with the loop
still polling. -/
def deleteWait : Status → List RefreshResult → Option Report
  | s, trace =>
    if s.name = "delete" then
      match trace with
      | [] => none
      | .ok s' :: rest => deleteWait s' rest
      | .exn m :: _ =>
        if strContains m "model no longer exists" then
          some (.ok "image successfully deleted!")
        else
          some (.err "could not delete image")
    else
      match s.error with
      | some e => some (.err ("could not delete image due to: " ++ e))
      | none => some (.ok "image successfully deleted")

/-- Exit of a `while status.name != target: sleep(1); refresh()` loop:
the loop reached a status with the target name after the given number of
unit sleeps (with the unconsumed remainder of the trace), or a refresh
raised. -/
inductive LoopExit where
  | reached (sleeps : Nat) (final : Status) (leftover : List RefreshResult)
  | refreshFailed (sleeps : Nat) (msg : String)
  deriving Repr, DecidableEq

/-- Embeds the polling loops of `ImageCmd._wait_for_image` (images.py lines
540-552): while the status name differs from `target`, sleep one time unit
and refresh; each iteration performs exactly one unit sleep before the
refresh, so `sleeps` counts both the elapsed delay and the refresh calls.
`none` means the trace ended with the loop still polling. -/
def pollUntil (target : String) : Nat → Status → List RefreshResult → Option LoopExit
  | sleeps, s, trace =>
    if s.name = target then some (.reached sleeps s trace)
    else
      match trace with
      | [] => none
      | .ok s' :: rest => pollUntil target (sleeps + 1) s' rest
      | .exn m :: _ => some (.refreshFailed (sleeps + 1) m)

/-- Outcome of `_wait_for_image`: the `self.ok` messages printed after the
loop (with the sleep count and the unconsumed trace), or a raised
exception. -/
inductive WaitResult where
  | reported (sleeps : Nat) (msgs : List String) (leftover : List RefreshResult)
  | raised (sleeps : Nat) (msg : String)
  deriving Repr, DecidableEq

/-- Python `repr` of a simple string, as produced by `"{!r}".format(name)`. -/
def pyRepr (s : String) : String := "\x27" ++ s ++ "\x27"

/-- Embeds `ImageCmd._wait_for_image` (images.py lines 537-552) over a
finite refresh trace.  Interactive: poll until `status.name` is
"configuring", then report the VNC URI from the status (a missing `vnc` key
would raise a lookup error) and the shutdown hint.  Non-interactive: poll
until `status.name` is "ready", then report that the image is ready.
A raised refresh exception propagates (there is no handler in the
source). -/
def waitForImage (interactive : Bool) (imageName : String) (s : Status)
    (trace : List RefreshResult) : Option WaitResult :=
  if interactive then
    match pollUntil "configuring" 0 s trace with
    | none => none
    | some (.reached k fin leftover) =>
      match fin.vnc with
      | some uri =>
        some (.reported k
          ["Image is up and running at " ++ uri,
           "Shutdown (yes, nicely shut it down) to save your changes"] leftover)
      | none => some (.raised k "KeyError: vnc")
    | some (.refreshFailed k m) => some (.raised k m)
  else
    match pollUntil "ready" 0 s trace with
    | none => none
    | some (.reached k _ leftover) =>
      some (.reported k ["image " ++ pyRepr imageName ++ " is ready for use"] leftover)
    | some (.refreshFailed k m) => some (.raised k m)

/-- Validation messages of the interactive editor loops of `do_edit`
(images.py lines 279-291) and `do_create` (lines 361-372): one `self.err`
message per missing required field, in source order (os, then name, then
base_image); a name that is the empty string counts as missing. -/
def validationErrors (img : Image) : List String :=
  (if img.os = none then ["You must specify the os"] else []) ++
  (if img.name = none ∨ img.name = some "" then ["You must specify a name for the image"] else []) ++
  (if img.base_image = none then ["You must specify the base_image for your new image"] else [])

/-- Outcome of one pass of an interactive editor loop after `cmdloop`
returns uncancelled: the validation errors were reported and the loop
resumes without calling `save()`; or `save()` was called on the given image
and succeeded, printing the given messages; or `save()` was called and
raised `TalusApiError`, whose message was reported via `self.err`. -/
inductive EditOutcome where
  | resume (errs : List String)
  | saved (img : Image) (msgs : List String)
  | saveFailed (errMsg : String)
  deriving Repr, DecidableEq

/-- Whether the outcome of an editor-loop pass involved a `save()` call. -/
def saveCalled : EditOutcome → Bool
  | .resume _ => false
  | .saved _ _ => true
  | .saveFailed _ => true

/-- Embeds one pass of the `do_edit` loop body after `cmdloop` (images.py
lines 279-303): report validation errors and resume when a required field
is missing; otherwise call `save()` (whose success or `TalusApiError`
message is the `saveErr` parameter, the remote being external). -/
def editIteration (img : Image) (saveErr : Option String) : EditOutcome :=
  let errs := validationErrors img
  if errs ≠ [] then .resume errs
  else
    match saveErr with
    | some m => .saveFailed m
    | none =>
      .saved img
        ["edited image " ++ img.id,
         "note that this DOES NOT start the image for configuring!"]

/-- Embeds one pass of the interactive `do_create` loop body after `cmdloop`
(images.py lines 361-388): report validation errors and resume when a
required field is missing; otherwise append the current user to the image's
tags when not already present, and call `save()` on the result. -/
def createIteration (user : String) (img : Image) (saveErr : Option String) : EditOutcome :=
  let errs := validationErrors img
  if errs ≠ [] then .resume errs
  else
    let img' := { img with
      tags := if user ∈ img.tags then img.tags else img.tags ++ [user] }
    match saveErr with
    | some m => .saveFailed m
    | none => .saved img' ["created new image " ++ img'.id]

/-- Search terms of `do_list` relevant to its defaulting logic: the optional
`sort` key and the optional `num` key of the search dictionary built by
`_search_terms`. -/
structure Search where
  sort : Option String := none
  num : Option Nat := none
  deriving Repr, DecidableEq

/-- Embeds the search-defaulting logic of `ImageCmd.do_list` (images.py
lines 36-44): when no `sort` key is present, sort by "timestamps.created";
when the `--all` flag is absent and no `num` term is present, limit the
query to 20 results and print a truncation notice (returned as the second
component). -/
def doListSearch (hasAllFlag : Bool) (search : Search) : Search × Option String :=
  let s1 := if search.sort = none then
      { search with sort := some "timestamps.created" }
    else search
  if hasAllFlag = false ∧ search.num = none then
    ({ s1 with num := some 20 },
     some "showing first 20 results, use --all to see everything")
  else (s1, none)

/-- Concrete sample data used to instantiate the theorems below. -/
def sampleRoot : Image := { id := "A", name := some "root" }

/-- Child of `sampleRoot`. -/
def sampleChild : Image := { id := "B", name := some "child", base_image := some "A" }

/-- Grandchild: child of `sampleChild`. -/
def sampleGrand : Image := { id := "C", name := some "grand", base_image := some "B" }

/-- Remote listing holding a root and one child. -/
def sampleEnv : List Image := [sampleRoot, sampleChild]

/-- Remote listing holding the three-image chain A, B, C. -/
def chainEnv : List Image := [sampleRoot, sampleChild, sampleGrand]

/-- Parent with two children, for the preorder tests. -/
def parentX : Image := { id := "X" }

/-- First child of `parentX`. -/
def childY : Image := { id := "Y", base_image := some "X" }

/-- Second child of `parentX`. -/
def childZ : Image := { id := "Z", base_image := some "X" }

/-- Remote listing where `parentX` has the children `[childY, childZ]`. -/
def forkEnv : List Image := [parentX, childY, childZ]

lemma getLastD_pred {α : Type} (P : α → Prop) :
    ∀ (ss : List α) (d : α), P d → (∀ s ∈ ss, P s) → P (ss.getLastD d) := by
  intro ss
  induction ss with
  | nil => intro d hd _; exact hd
  | cons a as ih =>
    intro d _ hs
    rw [List.getLastD_cons]
    exact ih a (hs a (List.mem_cons_self a as)) (fun s hm => hs s (List.mem_cons_of_mem a hm))

lemma deleteWait_cons_ok (s s' : Status) (rest : List RefreshResult)
    (h : s.name = "delete") :
    deleteWait s (.ok s' :: rest) = deleteWait s' rest := by
  conv_lhs => rw [deleteWait]
  rw [if_pos h]

lemma deleteWait_append_oks :
    ∀ (ss : List Status) (s0 : Status), s0.name = "delete" →
      (∀ s ∈ ss, s.name = "delete") → ∀ tail : List RefreshResult,
      deleteWait s0 (ss.map RefreshResult.ok ++ tail) = deleteWait (ss.getLastD s0) tail := by
  intro ss
  induction ss with
  | nil => intro s0 _ _ tail; rfl
  | cons a as ih =>
    intro s0 h0 hs tail
    rw [List.map_cons, List.cons_append, deleteWait_cons_ok _ _ _ h0, List.getLastD_cons]
    exact ih a (hs a (List.mem_cons_self a as)) (fun s hm => hs s (List.mem_cons_of_mem a hm)) tail

lemma pollUntil_at_target (t : String) (k : Nat) (s : Status) (trace : List RefreshResult)
    (h : s.name = t) :
    pollUntil t k s trace = some (.reached k s trace) := by
  unfold pollUntil
  rw [if_pos h]

lemma pollUntil_cons_ok (t : String) (k : Nat) (s s' : Status) (rest : List RefreshResult)
    (h : s.name ≠ t) :
    pollUntil t k s (.ok s' :: rest) = pollUntil t (k + 1) s' rest := by
  conv_lhs => rw [pollUntil]
  rw [if_neg h]

lemma pollUntil_cons_exn (t : String) (k : Nat) (s : Status) (m : String)
    (rest : List RefreshResult) (h : s.name ≠ t) :
    pollUntil t k s (.exn m :: rest) = some (.refreshFailed (k + 1) m) := by
  unfold pollUntil
  rw [if_neg h]

lemma pollUntil_nil (t : String) (k : Nat) (s : Status) (h : s.name ≠ t) :
    pollUntil t k s [] = none := by
  unfold pollUntil
  rw [if_neg h]

lemma pollUntil_append_oks (t : String) :
    ∀ (ss : List Status) (s0 : Status) (k : Nat), s0.name ≠ t →
      (∀ s ∈ ss, s.name ≠ t) → ∀ tail : List RefreshResult,
      pollUntil t k s0 (ss.map RefreshResult.ok ++ tail) =
        pollUntil t (k + ss.length) (ss.getLastD s0) tail := by
  intro ss
  induction ss with
  | nil => intro s0 k _ _ tail; simp
  | cons a as ih =>
    intro s0 k h0 hs tail
    rw [List.map_cons, List.cons_append, pollUntil_cons_ok _ _ _ _ _ h0, List.getLastD_cons,
      ih a (k + 1) (hs a (List.mem_cons_self a as))
        (fun s hm => hs s (List.mem_cons_of_mem a hm)) tail]
    have harith : k + 1 + as.length = k + (a :: as).length := by
      simp [List.length_cons]; omega
    rw [harith]

lemma ancestorsAux_base_none (env : List Image) (fuel : Nat) (img : Image)
    (h : img.base_image = none) :
    ancestorsAux env fuel img = .ok [] := by
  unfold ancestorsAux
  rw [h]

lemma ancestorsAux_base_some (env : List Image) (fuel : Nat) (img base : Image) (bid : String)
    (h : img.base_image = some bid) (hf : findOne env bid = some base) :
    ancestorsAux env (fuel + 1) img =
      (ancestorsAux env fuel base).map (fun rest => rest ++ [base]) := by
  conv_lhs => rw [ancestorsAux]
  rw [h]
  simp [hf]

lemma getTreeLines_head (env : List Image) (fuel : Nat) (img : Image) (depth : Nat)
    (recurse : Bool) :
    (getTreeLines env fuel img depth recurse).head? = some (depth, img) := by
  cases fuel <;> simp [getTreeLines]

lemma validationErrors_nil_iff (img : Image) :
    validationErrors img = [] ↔
      (img.os ≠ none ∧ img.name ≠ none ∧ img.name ≠ some "" ∧ img.base_image ≠ none) := by
  unfold validationErrors
  split_ifs with h1 h2 h3 <;> simp_all
  tauto

/-- C1: for every image whose children list is non-empty, both `do_delete`
and `do_configure` report a dependent-snapshots error, display the
offending subtree, raise, and do not invoke the remote mutation endpoint;
the remote call is made exactly when the children list is empty. -/
theorem guarded_delete_configure_no_dependents (env : List Image) (fuel : Nat)
    (nameArg : String) (img : Image) :
    ((deleteGuard env fuel nameArg img).remoteCalled = true ↔ childrenOf env img = []) ∧
    ((configureGuard env fuel nameArg img).remoteCalled = true ↔ childrenOf env img = []) ∧
    (childrenOf env img ≠ [] →
      (deleteGuard env fuel nameArg img).remoteCalled = false ∧
      (deleteGuard env fuel nameArg img).raisedMsg =
        some ("Cannot delete image " ++ nameArg ++ "! it has dependent snapshots!") ∧
      (deleteGuard env fuel nameArg img).shownTree = some (showImageInTree env fuel img) ∧
      (configureGuard env fuel nameArg img).remoteCalled = false ∧
      (configureGuard env fuel nameArg img).raisedMsg =
        some ("the image " ++ nameArg ++ " has dependent snapshots! cannot configure the image") ∧
      (configureGuard env fuel nameArg img).shownTree = some (showImageInTree env fuel img)) := by
  rcases eq_or_ne (childrenOf env img) [] with hc | hc
  · simp [deleteGuard, configureGuard, hc]
  · have hlen : (childrenOf env img).length > 0 := List.length_pos.mpr hc
    simp [deleteGuard, configureGuard, hc, hlen]

/-- Witness for C1: in `sampleEnv` the root has the child `sampleChild`, so
both guards refuse it without a remote call, while the childless
`sampleChild` is passed to the remote endpoint. -/
theorem guarded_delete_configure_no_dependents_witness :
    (deleteGuard sampleEnv 2 "A" sampleRoot).remoteCalled = false ∧
    (configureGuard sampleEnv 2 "A" sampleRoot).remoteCalled = false ∧
    (deleteGuard sampleEnv 2 "B" sampleChild).remoteCalled = true := by
  have hne : childrenOf sampleEnv sampleRoot ≠ [] := by decide
  have h := guarded_delete_configure_no_dependents sampleEnv 2 "A" sampleRoot
  have h2 := guarded_delete_configure_no_dependents sampleEnv 2 "B" sampleChild
  exact ⟨(h.2.2 hne).1, (h.2.2 hne).2.2.2.1, h2.1.mpr (by decide)⟩

/-- C3: the ancestor walk of `_show_image_in_tree` returns the root-first
ancestor chain: an image with no base image has no ancestors, and for a
chain A ← B ← C the walk at C yields `[A, B]`. -/
theorem ancestors_root_empty_and_chain (env : List Image) (A B C : Image) (n : Nat)
    (hA : A.base_image = none) (hB : B.base_image = some A.id) (hC : C.base_image = some B.id)
    (hfA : findOne env A.id = some A) (hfB : findOne env B.id = some B) :
    (∀ (env2 : List Image) (fuel : Nat) (img : Image), img.base_image = none →
      ancestorsAux env2 fuel img = Except.ok []) ∧
    ancestorsAux env (n + 2) C = Except.ok [A, B] := by
  refine ⟨fun env2 fuel img h => ancestorsAux_base_none env2 fuel img h, ?_⟩
  have hn : n + 2 = (n + 1) + 1 := rfl
  rw [hn, ancestorsAux_base_some env (n + 1) C B B.id hC hfB,
    ancestorsAux_base_some env n B A A.id hB hfA,
    ancestorsAux_base_none env n A hA]
  rfl

/-- Witness for C3: in the concrete chain `chainEnv`, the grandchild has the
ancestors `[sampleRoot, sampleChild]` and the root has none. -/
theorem ancestors_root_empty_and_chain_witness :
    ancestorsAux chainEnv 2 sampleGrand = Except.ok [sampleRoot, sampleChild] ∧
    ancestorsAux chainEnv 0 sampleRoot = Except.ok [] := by
  have h := ancestors_root_empty_and_chain chainEnv sampleRoot sampleChild sampleGrand 0
    (by decide) (by decide) (by decide) (by decide) (by decide)
  exact ⟨h.2, h.1 chainEnv 0 sampleRoot (by decide)⟩

/-- C4: the tree-line builder emits the image itself first at the given
depth, and with recursion enabled an image X with children `[Y, Z]` is
followed by the whole block of Y at depth 1 and then the whole block of Z
at depth 1, each block headed by its own child (preorder, listing
order). -/
theorem flatten_preorder (env : List Image) (fuel : Nat) (img : Image) (depth : Nat)
    (recurse : Bool) (X Y Z : Image) (hc : childrenOf env X = [Y, Z]) :
    (getTreeLines env fuel img depth recurse).head? = some (depth, img) ∧
    getTreeLines env (fuel + 1) X 0 true =
      (0, X) :: (getTreeLines env fuel Y 1 true ++ getTreeLines env fuel Z 1 true) ∧
    (getTreeLines env fuel Y 1 true).head? = some (1, Y) ∧
    (getTreeLines env fuel Z 1 true).head? = some (1, Z) := by
  refine ⟨getTreeLines_head env fuel img depth recurse, ?_,
    getTreeLines_head env fuel Y 1 true, getTreeLines_head env fuel Z 1 true⟩
  simp [getTreeLines, hc]

/-- Witness for C4: in `forkEnv`, `parentX` has children `[childY, childZ]`
and its tree lines are itself at depth 0 followed by the two child blocks
at depth 1. -/
theorem flatten_preorder_witness :
    childrenOf forkEnv parentX = [childY, childZ] ∧
    getTreeLines forkEnv 2 parentX 0 true =
      (0, parentX) ::
        (getTreeLines forkEnv 1 childY 1 true ++ getTreeLines forkEnv 1 childZ 1 true) := by
  have hc : childrenOf forkEnv parentX = [childY, childZ] := by decide
  exact ⟨hc, (flatten_preorder forkEnv 1 parentX 0 true parentX childY childZ hc).2.1⟩

/-- C2: in the delete-wait loop, a refresh trace that stays in the "delete"
state for finitely many polls and then raises the does-not-exist failure
makes the poller report success; a raise whose text does not contain
"model no longer exists" makes it report an error instead. -/
theorem delete_poll_notfound_success (s0 : Status) (ss : List Status) (m : String)
    (h0 : s0.name = "delete") (hs : ∀ s ∈ ss, s.name = "delete") :
    (strContains m "model no longer exists" = true →
      deleteWait s0 (ss.map RefreshResult.ok ++ [RefreshResult.exn m]) =
        some (Report.ok "image successfully deleted!")) ∧
    (strContains m "model no longer exists" = false →
      deleteWait s0 (ss.map RefreshResult.ok ++ [RefreshResult.exn m]) =
        some (Report.err "could not delete image")) := by
  have hlast : (ss.getLastD s0).name = "delete" :=
    getLastD_pred (fun s => s.name = "delete") ss s0 h0 hs
  rw [deleteWait_append_oks ss s0 h0 hs [RefreshResult.exn m]]
  generalize hgen : ss.getLastD s0 = sl at hlast
  constructor
  · intro hm
    conv_lhs => rw [deleteWait]
    rw [if_pos hlast, if_pos hm]
  · intro hm
    conv_lhs => rw [deleteWait]
    rw [if_pos hlast, if_neg (by simp [hm])]

/-- Witness for C2: two "delete" polls followed by the does-not-exist raise
report success; an unrelated raise reports an error. -/
theorem delete_poll_notfound_success_witness :
    deleteWait ⟨"delete", none, none⟩
      [RefreshResult.ok ⟨"delete", none, none⟩, RefreshResult.ok ⟨"delete", none, none⟩,
       RefreshResult.exn "this model no longer exists, sorry"] =
      some (Report.ok "image successfully deleted!") ∧
    deleteWait ⟨"delete", none, none⟩
      [RefreshResult.ok ⟨"delete", none, none⟩, RefreshResult.ok ⟨"delete", none, none⟩,
       RefreshResult.exn "connection reset"] =
      some (Report.err "could not delete image") := by
  have h1 := delete_poll_notfound_success ⟨"delete", none, none⟩
    [⟨"delete", none, none⟩, ⟨"delete", none, none⟩] "this model no longer exists, sorry"
    (by decide) (by decide)
  have h2 := delete_poll_notfound_success ⟨"delete", none, none⟩
    [⟨"delete", none, none⟩, ⟨"delete", none, none⟩] "connection reset"
    (by decide) (by decide)
  exact ⟨h1.1 (by decide), h2.2 (by decide)⟩

/-- C6 counterexample: a refresh can return a status that carries the error
key "disk busy" while its name is still "delete"; the loop keeps polling
past it, and a later does-not-exist raise makes the poller report success,
not a failure carrying "disk busy". -/
theorem delete_error_key_counterexample :
    deleteWait ⟨"delete", none, none⟩
      [RefreshResult.ok ⟨"delete", some "disk busy", none⟩,
       RefreshResult.exn "model no longer exists"] =
      some (Report.ok "image successfully deleted!") ∧
    deleteWait ⟨"delete", none, none⟩
      [RefreshResult.ok ⟨"delete", some "disk busy", none⟩,
       RefreshResult.exn "model no longer exists"] ≠
      some (Report.err ("could not delete image due to: " ++ "disk busy")) := by
  decide

/-- C6 (amended): when the delete-wait loop exits at a refreshed status
whose name is no longer "delete" and which carries an error key, the poller
reports failure with that error message verbatim (a status whose name is
still "delete" does not stop the loop, whatever keys it carries). -/
theorem delete_error_key_reports_failure (s0 : Status) (ss : List Status) (sfin : Status)
    (e : String) (rest : List RefreshResult)
    (h0 : s0.name = "delete") (hs : ∀ s ∈ ss, s.name = "delete")
    (hf : sfin.name ≠ "delete") (he : sfin.error = some e) :
    deleteWait s0 (ss.map RefreshResult.ok ++ RefreshResult.ok sfin :: rest) =
      some (Report.err ("could not delete image due to: " ++ e)) := by
  have hlast : (ss.getLastD s0).name = "delete" :=
    getLastD_pred (fun s => s.name = "delete") ss s0 h0 hs
  rw [deleteWait_append_oks ss s0 h0 hs (RefreshResult.ok sfin :: rest),
    deleteWait_cons_ok _ _ _ hlast]
  conv_lhs => rw [deleteWait.eq_def]
  dsimp only
  rw [if_neg hf, he]

/-- Witness for C6 (amended): one "delete" poll, then a status named
"error" with the error key "disk busy" makes the poller report that message
verbatim. -/
theorem delete_error_key_reports_failure_witness :
    deleteWait ⟨"delete", none, none⟩
      [RefreshResult.ok ⟨"delete", none, none⟩,
       RefreshResult.ok ⟨"error", some "disk busy", none⟩] =
      some (Report.err ("could not delete image due to: " ++ "disk busy")) := by
  exact delete_error_key_reports_failure ⟨"delete", none, none⟩ [⟨"delete", none, none⟩]
    ⟨"error", some "disk busy", none⟩ "disk busy" []
    (by decide) (by decide) (by decide) (by decide)

/-- C5: in interactive mode, a status trace moving from "create" to
"configuring" stops the wait loop at "configuring" after that single poll,
reports the VNC URI from the status, and leaves the rest of the trace
(for instance a later "ready" state) unconsumed. -/
theorem interactive_wait_stops_at_configuring (imageName : String) (s0 s1 : Status)
    (uri : String) (rest : List RefreshResult)
    (h0 : s0.name = "create") (h1 : s1.name = "configuring") (hv : s1.vnc = some uri) :
    waitForImage true imageName s0 (RefreshResult.ok s1 :: rest) =
      some (WaitResult.reported 1
        ["Image is up and running at " ++ uri,
         "Shutdown (yes, nicely shut it down) to save your changes"] rest) := by
  have h0' : s0.name ≠ "configuring" := by rw [h0]; decide
  unfold waitForImage
  rw [if_pos rfl, pollUntil_cons_ok _ _ _ _ _ h0', pollUntil_at_target _ _ _ _ h1]
  simp [hv]

/-- Witness for C5: a concrete create-then-configuring trace stops at
"configuring" with the URI, leaving a pending "ready" refresh unread. -/
theorem interactive_wait_stops_at_configuring_witness :
    waitForImage true "win7" ⟨"create", none, none⟩
      [RefreshResult.ok ⟨"configuring", none, some "vnc://host:5900"⟩,
       RefreshResult.ok ⟨"ready", none, none⟩] =
      some (WaitResult.reported 1
        ["Image is up and running at " ++ "vnc://host:5900",
         "Shutdown (yes, nicely shut it down) to save your changes"]
        [RefreshResult.ok ⟨"ready", none, none⟩]) := by
  exact interactive_wait_stops_at_configuring "win7" ⟨"create", none, none⟩
    ⟨"configuring", none, some "vnc://host:5900"⟩ "vnc://host:5900"
    [RefreshResult.ok ⟨"ready", none, none⟩] (by decide) (by decide) (by decide)

/-- C7: in non-interactive mode the wait loop sleeps one unit per check
with no retry bound: a finite all-non-"ready" trace leaves it still
polling, the first "ready" status stops it with the success report after
exactly one sleep per refresh, and a raising refresh is the only other way
out. -/
theorem noninteractive_wait_until_ready (imageName : String) (s0 : Status) (ss : List Status)
    (h0 : s0.name ≠ "ready") (hs : ∀ s ∈ ss, s.name ≠ "ready") :
    (waitForImage false imageName s0 (ss.map RefreshResult.ok) = none) ∧
    (∀ (sr : Status) (rest : List RefreshResult), sr.name = "ready" →
      waitForImage false imageName s0 (ss.map RefreshResult.ok ++ RefreshResult.ok sr :: rest) =
        some (WaitResult.reported (ss.length + 1)
          ["image " ++ pyRepr imageName ++ " is ready for use"] rest)) ∧
    (∀ (m : String) (rest : List RefreshResult),
      waitForImage false imageName s0 (ss.map RefreshResult.ok ++ RefreshResult.exn m :: rest) =
        some (WaitResult.raised (ss.length + 1) m)) := by
  have hlast : (ss.getLastD s0).name ≠ "ready" :=
    getLastD_pred (fun s => s.name ≠ "ready") ss s0 h0 hs
  refine ⟨?_, ?_, ?_⟩
  · unfold waitForImage
    rw [if_neg (by decide), ← List.append_nil (ss.map RefreshResult.ok),
      pollUntil_append_oks _ ss s0 0 h0 hs [], pollUntil_nil _ _ _ hlast]
  · intro sr rest hr
    unfold waitForImage
    rw [if_neg (by decide), pollUntil_append_oks _ ss s0 0 h0 hs _,
      pollUntil_cons_ok _ _ _ _ _ hlast, pollUntil_at_target _ _ _ _ hr]
    simp [Nat.add_comm]
  · intro m rest
    unfold waitForImage
    rw [if_neg (by decide), pollUntil_append_oks _ ss s0 0 h0 hs _,
      pollUntil_cons_exn _ _ _ _ _ hlast]
    simp [Nat.add_comm]

/-- Witness for C7: a create-then-configuring trace leaves the
non-interactive loop polling; appending a "ready" refresh stops it with the
ready report after three unit sleeps; a raising refresh instead exits with
the raise. -/
theorem noninteractive_wait_until_ready_witness :
    waitForImage false "win7" ⟨"create", none, none⟩
      [RefreshResult.ok ⟨"create", none, none⟩, RefreshResult.ok ⟨"configuring", none, none⟩] =
      none ∧
    waitForImage false "win7" ⟨"create", none, none⟩
      [RefreshResult.ok ⟨"create", none, none⟩, RefreshResult.ok ⟨"configuring", none, none⟩,
       RefreshResult.ok ⟨"ready", none, none⟩] =
      some (WaitResult.reported 3 ["image " ++ pyRepr "win7" ++ " is ready for use"] []) ∧
    waitForImage false "win7" ⟨"create", none, none⟩
      [RefreshResult.ok ⟨"create", none, none⟩, RefreshResult.ok ⟨"configuring", none, none⟩,
       RefreshResult.exn "connection reset"] =
      some (WaitResult.raised 3 "connection reset") := by
  have h := noninteractive_wait_until_ready "win7" ⟨"create", none, none⟩
    [⟨"create", none, none⟩, ⟨"configuring", none, none⟩] (by decide) (by decide)
  exact ⟨h.1, h.2.1 ⟨"ready", none, none⟩ [] (by decide), h.2.2 "connection reset" []⟩

lemma editIteration_resume (img : Image) (saveErr : Option String)
    (he : validationErrors img ≠ []) :
    editIteration img saveErr = .resume (validationErrors img) := by
  unfold editIteration
  dsimp only
  rw [if_pos he]

lemma createIteration_resume (user : String) (img : Image) (saveErr : Option String)
    (he : validationErrors img ≠ []) :
    createIteration user img saveErr = .resume (validationErrors img) := by
  unfold createIteration
  dsimp only
  rw [if_pos he]

lemma saveCalled_editIteration (img : Image) (saveErr : Option String) :
    saveCalled (editIteration img saveErr) = decide (validationErrors img = []) := by
  unfold editIteration
  dsimp only
  rcases eq_or_ne (validationErrors img) [] with he | he
  · rw [if_neg (by simp [he])]
    cases saveErr <;> simp [saveCalled, he]
  · rw [if_pos he]
    simp [saveCalled, he]

lemma saveCalled_createIteration (user : String) (img : Image) (saveErr : Option String) :
    saveCalled (createIteration user img saveErr) = decide (validationErrors img = []) := by
  unfold createIteration
  dsimp only
  rcases eq_or_ne (validationErrors img) [] with he | he
  · rw [if_neg (by simp [he])]
    cases saveErr <;> simp [saveCalled, he]
  · rw [if_pos he]
    simp [saveCalled, he]

/-- C8: in both the interactive create and the edit loop, a missing
required field (os, name, or base_image) makes the pass report the
validation messages and resume the editor loop without calling `save()`;
`save()` is called exactly when all three fields are present (a non-empty
name counting as present). -/
theorem create_edit_validation_guard (img : Image) (user : String) (saveErr : Option String) :
    ((img.os = none ∨ img.name = none ∨ img.name = some "" ∨ img.base_image = none) →
      editIteration img saveErr = .resume (validationErrors img) ∧
      createIteration user img saveErr = .resume (validationErrors img) ∧
      validationErrors img ≠ []) ∧
    (saveCalled (editIteration img saveErr) = true ↔
      (img.os ≠ none ∧ img.name ≠ none ∧ img.name ≠ some "" ∧ img.base_image ≠ none)) ∧
    (saveCalled (createIteration user img saveErr) = true ↔
      (img.os ≠ none ∧ img.name ≠ none ∧ img.name ≠ some "" ∧ img.base_image ≠ none)) := by
  refine ⟨?_, ?_, ?_⟩
  · intro hmiss
    have he : validationErrors img ≠ [] := by
      intro hnil
      have hall := (validationErrors_nil_iff img).mp hnil
      rcases hmiss with h | h | h | h
      · exact hall.1 h
      · exact hall.2.1 h
      · exact hall.2.2.1 h
      · exact hall.2.2.2 h
    exact ⟨editIteration_resume img saveErr he, createIteration_resume user img saveErr he, he⟩
  · rw [saveCalled_editIteration]
    simp [← validationErrors_nil_iff]
  · rw [saveCalled_createIteration]
    simp [← validationErrors_nil_iff]

/-- Witness for C8: an image missing only the os resumes the edit loop with
the os message; a fully specified image reaches `save()`. -/
theorem create_edit_validation_guard_witness :
    editIteration { id := "i", name := some "win7", base_image := some "b" } none =
      .resume ["You must specify the os"] ∧
    saveCalled (createIteration "bob"
      { id := "i", name := some "win7", os := some "o", base_image := some "b" } none) = true := by
  have h1 := create_edit_validation_guard
    { id := "i", name := some "win7", base_image := some "b" } "bob" none
  have h2 := create_edit_validation_guard
    { id := "i", name := some "win7", os := some "o", base_image := some "b" } "bob" none
  refine ⟨?_, h2.2.2.mpr (by decide)⟩
  rw [(h1.1 (Or.inl (by decide))).1]
  decide

/-- C9: `do_list` sorts by "timestamps.created" when the search terms carry
no sort key, and when neither the `--all` flag nor a num term is given it
limits the query to the first 20 results and prints the truncation
notice. -/
theorem list_search_defaults (hasAll : Bool) (s : Search) :
    (s.sort = none → ((doListSearch hasAll s).1).sort = some "timestamps.created") ∧
    (s.sort ≠ none → ((doListSearch hasAll s).1).sort = s.sort) ∧
    (hasAll = false → s.num = none →
      ((doListSearch hasAll s).1).num = some 20 ∧
      (doListSearch hasAll s).2 =
        some "showing first 20 results, use --all to see everything") ∧
    ((hasAll = true ∨ s.num ≠ none) →
      ((doListSearch hasAll s).1).num = s.num ∧ (doListSearch hasAll s).2 = none) := by
  obtain ⟨so, nu⟩ := s
  cases hasAll <;> rcases so with _ | so <;> rcases nu with _ | nu <;> simp [doListSearch]

/-- Witness for C9: with no flags and empty search terms, the sort key
defaults to "timestamps.created", the limit to 20, and the notice is
printed. -/
theorem list_search_defaults_witness :
    ((doListSearch false { sort := none, num := none }).1).sort =
      some "timestamps.created" ∧
    ((doListSearch false { sort := none, num := none }).1).num = some 20 ∧
    (doListSearch false { sort := none, num := none }).2 =
      some "showing first 20 results, use --all to see everything" := by
  have h := list_search_defaults false { sort := none, num := none }
  exact ⟨h.1 rfl, (h.2.2.1 rfl rfl).1, (h.2.2.1 rfl rfl).2⟩

/-- C10: whenever the interactive create pass reaches `save()`, the image
passed to `save()` carries the current user among its tags: the user is
appended exactly when not already present. -/
theorem create_appends_creator_tag (user : String) (img img' : Image)
    (saveErr : Option String) (msgs : List String)
    (h : createIteration user img saveErr = .saved img' msgs) :
    user ∈ img'.tags ∧
    img'.tags = (if user ∈ img.tags then img.tags else img.tags ++ [user]) := by
  unfold createIteration at h
  dsimp only at h
  by_cases he : validationErrors img = []
  · rw [if_neg (by simp [he])] at h
    cases saveErr with
    | some m => exact absurd h (by simp)
    | none =>
      injection h with h1 h2
      subst h1
      constructor
      · by_cases hmem : user ∈ img.tags <;> simp [hmem]
      · rfl
  · rw [if_pos he] at h
    exact absurd h (by simp)

/-- Witness for C10: the user "bob", absent from the tags `["x"]`, is
appended before the save. -/
theorem create_appends_creator_tag_witness :
    ("bob" : String) ∈
      ({ id := "i", name := some "n", os := some "o", base_image := some "b",
         tags := ["x", "bob"] } : Image).tags := by
  have h := create_appends_creator_tag "bob"
    { id := "i", name := some "n", os := some "o", base_image := some "b", tags := ["x"] }
    { id := "i", name := some "n", os := some "o", base_image := some "b", tags := ["x", "bob"] }
    none ["created new image i"] (by decide)
  exact h.1

end Talus
